import Mathlib

/-!
Shallow embedding of src/main.rs (minecraft-mod-replacer): the EOCD
locator `find_eocd` and the size-preserving padder `pad_zip_file`,
together with theorems settling the specification claims.

Bytes are modelled as natural numbers and buffers as lists of naturals.
`u8` reads become `List.getD _ _ 0`; `u16::from_le_bytes` becomes
`lo + 256 * hi`; the `as u16` truncating cast becomes `% 65536` and
`u16::to_le_bytes` becomes `[v % 256, v / 256]`.  The Rust return type
`Result<Option<Vec<u8>>, _>` is kept as `Except String (Option (List Nat))`;
every return path in the source is `Ok(...)`.
-/

namespace ModReplacer

/-- The 4-byte EOCD magic signature `50 4B 05 06` (decimal 80 75 5 6). -/
def eocdSignature : List Nat := [80, 75, 5, 6]

/-- Slice comparison `data[i..i+4] == eocd_signature`.  On every path where
the source evaluates the slice, `i + 4 <= data.len()` holds, so the
take/drop rendering agrees with the Rust slice there. -/
def sigMatch (data : List Nat) (i : Nat) : Bool :=
  decide ((data.drop i).take 4 = eocdSignature)

/-- Little-endian 16-bit read `u16::from_le_bytes([data[i], data[i+1]])`. -/
def readU16 (data : List Nat) (i : Nat) : Nat :=
  data.getD i 0 + 256 * data.getD (i + 1) 0

/-- Backward search over the index interval `[lo, lo + n)`, scanning from the
top index down, returning the first (largest) index satisfying `p`.
This models a Rust `for i in (lo..lo+n).rev()` loop with early `return`. -/
def findRevAux (p : Nat → Bool) (lo : Nat) : Nat → Option Nat
  | 0 => none
  | n + 1 => if p (lo + n) then some (lo + n) else findRevAux p lo n

/-- Backward search over `[lo, hi)`, from `hi - 1` down to `lo`. -/
def findRev (p : Nat → Bool) (lo hi : Nat) : Option Nat :=
  findRevAux p lo (hi - lo)

/-- Body of the bounded first pass of `find_eocd` (main.rs lines 169-176):
`i + 22 <= data.len() && data[i..i+4] == eocd_signature`, then the nested
comment-length check `i + 22 + comment_len <= data.len()`. -/
def eocdCheck1 (data : List Nat) (i : Nat) : Bool :=
  (decide (i + 22 ≤ data.length) && sigMatch data i) &&
    decide (i + 22 + readU16 data (i + 20) ≤ data.length)

/-- Body of the exhaustive second pass of `find_eocd` (main.rs lines 178-188):
signature first, then the nested `i + 22 <= data.len()` and comment-length
checks. -/
def eocdCheck2 (data : List Nat) (i : Nat) : Bool :=
  sigMatch data i &&
    (decide (i + 22 ≤ data.length) &&
      decide (i + 22 + readU16 data (i + 20) ≤ data.length))

/-- Returns the first result if it is `some`, the second otherwise: the
early `return Some(i)` of the first loop pre-empting the second loop. -/
def firstSome (a b : Option Nat) : Option Nat :=
  match a with
  | some i => some i
  | none => b

/-- `find_eocd` (main.rs lines 165-195): a bounded backward pass over the
last 65557 bytes (`search_start = len.saturating_sub(65557)` up to
`len.saturating_sub(3)`), then, only if it found nothing, an exhaustive
backward pass over `0 .. len.saturating_sub(21)`.  Natural-number
subtraction is saturating, matching `saturating_sub`. -/
def find_eocd (data : List Nat) : Option Nat :=
  firstSome
    (findRev (eocdCheck1 data) (data.length - 65557) (data.length - 3))
    (findRev (eocdCheck2 data) 0 (data.length - 21))

/-- `pad_zip_file` (main.rs lines 132-163).  Refuses (`Ok(None)`) when
`padding_size > 65535`, when no EOCD is found, or when the new comment
length would exceed 65535; otherwise overwrites the two comment-length
bytes little-endian and appends `padding_size` copies of the filler byte
`b'#'` (35). -/
def pad_zip_file (data : List Nat) (padding_size : Nat) :
    Except String (Option (List Nat)) :=
  if padding_size > 65535 then
    Except.ok none
  else
    match find_eocd data with
    | some eocd_start =>
      let current_comment_len := readU16 data (eocd_start + 20)
      let new_comment_len := current_comment_len + padding_size
      if new_comment_len > 65535 then
        Except.ok none
      else
        let v := new_comment_len % 65536
        let data1 :=
          (data.set (eocd_start + 20) (v % 256)).set (eocd_start + 21) (v / 256)
        Except.ok (some (data1 ++ List.replicate padding_size 35))
    | none => Except.ok none

instance instDecEqExceptPad : DecidableEq (Except String (Option (List Nat))) :=
  fun x y =>
    match x, y with
    | Except.ok a, Except.ok b =>
      if h : a = b then isTrue (by rw [h])
      else isFalse (fun he => h (Except.ok.inj he))
    | Except.ok _, Except.error _ => isFalse (fun he => Except.noConfusion he)
    | Except.error _, Except.ok _ => isFalse (fun he => Except.noConfusion he)
    | Except.error e, Except.error f =>
      if h : e = f then isTrue (by rw [h])
      else isFalse (fun he => h (Except.error.inj he))

/-- An offset passes the code's validation: signature match, fixed record in
bounds, and declared comment fits inside the buffer (a less-or-equal check
in the source). -/
def validEocd (data : List Nat) (i : Nat) : Prop :=
  sigMatch data i = true ∧ i + 22 ≤ data.length ∧
    i + 22 + readU16 data (i + 20) ≤ data.length

instance validEocd.decidable (data : List Nat) (i : Nat) :
    Decidable (validEocd data i) := by
  unfold validEocd
  infer_instance

/-- The strict well-formedness invariant stated by the specification: the
declared comment reaches exactly the end of the buffer. -/
def strictValidEocd (data : List Nat) (i : Nat) : Prop :=
  sigMatch data i = true ∧ i + 22 + readU16 data (i + 20) = data.length

instance strictValidEocd.decidable (data : List Nat) (i : Nat) :
    Decidable (strictValidEocd data i) := by
  unfold strictValidEocd
  infer_instance

/-! Helper lemmas on the backward search. -/

theorem findRevAux_eq_some_iff (p : Nat → Bool) (lo n j : Nat) :
    findRevAux p lo n = some j ↔
      lo ≤ j ∧ j < lo + n ∧ p j = true ∧
        ∀ k, j < k → k < lo + n → p k = false := by
  induction n with
  | zero =>
    simp only [findRevAux]
    constructor
    · intro h
      exact absurd h (by simp)
    · intro h
      omega
  | succ n ih =>
    simp only [findRevAux]
    by_cases hp : p (lo + n) = true
    · simp only [hp, if_true]
      constructor
      · intro h
        cases h
        refine ⟨by omega, by omega, hp, ?_⟩
        intro k hk1 hk2
        omega
      · intro ⟨h1, h2, h3, h4⟩
        by_cases hj : j = lo + n
        · simp [hj]
        · exact absurd hp (by simp [h4 (lo + n) (by omega) (by omega)])
    · have hp0 : p (lo + n) = false := by
        cases h : p (lo + n)
        · rfl
        · exact absurd h hp
      simp only [hp0, Bool.false_eq_true, if_false]
      rw [ih]
      constructor
      · intro ⟨h1, h2, h3, h4⟩
        refine ⟨h1, by omega, h3, ?_⟩
        intro k hk1 hk2
        by_cases hk : k = lo + n
        · exact hk ▸ hp0
        · exact h4 k hk1 (by omega)
      · intro ⟨h1, h2, h3, h4⟩
        have hj : j ≠ lo + n := by
          intro he
          exact absurd (he ▸ h3) (by simp [hp0])
        refine ⟨h1, by omega, h3, ?_⟩
        intro k hk1 hk2
        exact h4 k hk1 (by omega)

theorem findRevAux_eq_none_iff (p : Nat → Bool) (lo n : Nat) :
    findRevAux p lo n = none ↔ ∀ k, lo ≤ k → k < lo + n → p k = false := by
  induction n with
  | zero =>
    simp only [findRevAux]
    constructor
    · intro _ k hk1 hk2
      omega
    · intro _
      trivial
  | succ n ih =>
    simp only [findRevAux]
    by_cases hp : p (lo + n) = true
    · simp only [hp, if_true]
      constructor
      · intro h
        exact absurd h (by simp)
      · intro h
        exact absurd (h (lo + n) (by omega) (by omega)) (by simp [hp])
    · have hp0 : p (lo + n) = false := by
        cases h : p (lo + n)
        · rfl
        · exact absurd h hp
      simp only [hp0, Bool.false_eq_true, if_false]
      rw [ih]
      constructor
      · intro h k hk1 hk2
        by_cases hk : k = lo + n
        · exact hk ▸ hp0
        · exact h k hk1 (by omega)
      · intro h k hk1 hk2
        exact h k hk1 (by omega)

theorem findRev_eq_some_iff (p : Nat → Bool) (lo hi j : Nat) :
    findRev p lo hi = some j ↔
      lo ≤ j ∧ j < hi ∧ p j = true ∧
        ∀ k, j < k → k < hi → p k = false := by
  unfold findRev
  rw [findRevAux_eq_some_iff]
  by_cases h : lo ≤ hi
  · have : lo + (hi - lo) = hi := by omega
    rw [this]
  · constructor
    · intro ⟨h1, h2, _⟩
      omega
    · intro ⟨h1, h2, _⟩
      omega

theorem findRev_eq_none_iff (p : Nat → Bool) (lo hi : Nat) :
    findRev p lo hi = none ↔ ∀ k, lo ≤ k → k < hi → p k = false := by
  unfold findRev
  rw [findRevAux_eq_none_iff]
  by_cases h : lo ≤ hi
  · have : lo + (hi - lo) = hi := by omega
    rw [this]
  · constructor
    · intro _ k hk1 hk2
      omega
    · intro _ k hk1 hk2
      omega

/-! Both pass bodies test the same condition. -/

theorem eocdCheck1_eq_true_iff (data : List Nat) (i : Nat) :
    eocdCheck1 data i = true ↔ validEocd data i := by
  unfold eocdCheck1 validEocd
  constructor
  · intro h
    simp only [Bool.and_eq_true, decide_eq_true_eq] at h
    exact ⟨h.1.2, h.1.1, h.2⟩
  · intro ⟨h1, h2, h3⟩
    simp only [Bool.and_eq_true, decide_eq_true_eq]
    exact ⟨⟨h2, h1⟩, h3⟩

theorem eocdCheck2_eq_true_iff (data : List Nat) (i : Nat) :
    eocdCheck2 data i = true ↔ validEocd data i := by
  unfold eocdCheck2 validEocd
  constructor
  · intro h
    simp only [Bool.and_eq_true, decide_eq_true_eq] at h
    exact ⟨h.1, h.2.1, h.2.2⟩
  · intro ⟨h1, h2, h3⟩
    simp only [Bool.and_eq_true, decide_eq_true_eq]
    exact ⟨h1, h2, h3⟩

theorem eocdCheck1_eq_false_iff (data : List Nat) (i : Nat) :
    eocdCheck1 data i = false ↔ ¬ validEocd data i := by
  rw [← eocdCheck1_eq_true_iff]
  cases h : eocdCheck1 data i <;> simp

theorem eocdCheck2_eq_false_iff (data : List Nat) (i : Nat) :
    eocdCheck2 data i = false ↔ ¬ validEocd data i := by
  rw [← eocdCheck2_eq_true_iff]
  cases h : eocdCheck2 data i <;> simp

theorem validEocd_bound (data : List Nat) (i : Nat) (h : validEocd data i) :
    i + 22 ≤ data.length :=
  h.2.1

/-! Master characterization of the locator: `find_eocd` returns the
rightmost offset passing the code's validation, and `none` when no offset
passes it. -/

theorem find_eocd_eq_some_iff (data : List Nat) (j : Nat) :
    find_eocd data = some j ↔
      validEocd data j ∧ ∀ k, j < k → ¬ validEocd data k := by
  constructor
  · unfold find_eocd
    cases h1 : findRev (eocdCheck1 data) (data.length - 65557) (data.length - 3) with
    | some i =>
      simp only [firstSome]
      intro h
      cases h
      rw [findRev_eq_some_iff] at h1
      obtain ⟨hlo, hhi, hpj, hmax⟩ := h1
      have hv : validEocd data j := (eocdCheck1_eq_true_iff data j).mp hpj
      refine ⟨hv, ?_⟩
      intro k hk hvk
      have hb := validEocd_bound data k hvk
      have hk2 : k < data.length - 3 := by omega
      have := hmax k hk hk2
      exact absurd hvk ((eocdCheck1_eq_false_iff data k).mp this)
    | none =>
      simp only [firstSome]
      intro h
      rw [findRev_eq_some_iff] at h
      obtain ⟨hlo, hhi, hpj, hmax⟩ := h
      have hv : validEocd data j := (eocdCheck2_eq_true_iff data j).mp hpj
      refine ⟨hv, ?_⟩
      intro k hk hvk
      have hb := validEocd_bound data k hvk
      have hk2 : k < data.length - 21 := by omega
      have := hmax k hk hk2
      exact absurd hvk ((eocdCheck2_eq_false_iff data k).mp this)
  · intro ⟨hv, hmax⟩
    have hb := validEocd_bound data j hv
    unfold find_eocd
    by_cases hwin : data.length - 65557 ≤ j
    · have h1 : findRev (eocdCheck1 data) (data.length - 65557) (data.length - 3)
          = some j := by
        rw [findRev_eq_some_iff]
        refine ⟨hwin, by omega, (eocdCheck1_eq_true_iff data j).mpr hv, ?_⟩
        intro k hk1 hk2
        exact (eocdCheck1_eq_false_iff data k).mpr (hmax k hk1)
      rw [h1]
      simp only [firstSome]
    · have h1 : findRev (eocdCheck1 data) (data.length - 65557) (data.length - 3)
          = none := by
        rw [findRev_eq_none_iff]
        intro k hk1 hk2
        exact (eocdCheck1_eq_false_iff data k).mpr (hmax k (by omega))
      rw [h1]
      simp only [firstSome]
      rw [findRev_eq_some_iff]
      refine ⟨by omega, by omega, (eocdCheck2_eq_true_iff data j).mpr hv, ?_⟩
      intro k hk1 hk2
      exact (eocdCheck2_eq_false_iff data k).mpr (hmax k hk1)

theorem find_eocd_eq_none_iff (data : List Nat) :
    find_eocd data = none ↔ ∀ k, ¬ validEocd data k := by
  constructor
  · unfold find_eocd
    cases h1 : findRev (eocdCheck1 data) (data.length - 65557) (data.length - 3) with
    | some i =>
      simp only [firstSome]
      intro h
      exact absurd h (by simp)
    | none =>
      simp only [firstSome]
      intro h k hvk
      have hb := validEocd_bound data k hvk
      rw [findRev_eq_none_iff] at h
      have := h k (by omega) (by omega)
      exact absurd hvk ((eocdCheck2_eq_false_iff data k).mp this)
  · intro h
    unfold find_eocd
    have h1 : findRev (eocdCheck1 data) (data.length - 65557) (data.length - 3)
        = none := by
      rw [findRev_eq_none_iff]
      intro k hk1 hk2
      exact (eocdCheck1_eq_false_iff data k).mpr (h k)
    rw [h1]
    simp only [firstSome]
    rw [findRev_eq_none_iff]
    intro k hk1 hk2
    exact (eocdCheck2_eq_false_iff data k).mpr (h k)

/-! Small list lemmas used for the padder. -/

theorem getD_append_left (l1 l2 : List Nat) (i d : Nat) (h : i < l1.length) :
    (l1 ++ l2).getD i d = l1.getD i d := by
  induction l1 generalizing i with
  | nil => simp at h
  | cons a t ih =>
    cases i with
    | zero => rfl
    | succ n =>
      have hn : n < t.length := by simpa using h
      simpa [List.getD] using ih n hn

theorem getD_set_self (l : List Nat) (i a d : Nat) (h : i < l.length) :
    (l.set i a).getD i d = a := by
  induction l generalizing i with
  | nil => simp at h
  | cons x t ih =>
    cases i with
    | zero => rfl
    | succ n =>
      have hn : n < t.length := by simpa using h
      simpa [List.getD] using ih n hn

theorem getD_set_ne (l : List Nat) (i j a d : Nat) (h : i ≠ j) :
    (l.set i a).getD j d = l.getD j d := by
  induction l generalizing i j with
  | nil => simp [List.set]
  | cons x t ih =>
    cases i with
    | zero =>
      cases j with
      | zero => exact absurd rfl h
      | succ m => rfl
    | succ n =>
      cases j with
      | zero => rfl
      | succ m =>
        have hnm : n ≠ m := by omega
        simpa [List.getD] using ih n m hnm

theorem set_getD_self (l : List Nat) (i : Nat) :
    l.set i (l.getD i 0) = l := by
  induction l generalizing i with
  | nil => rfl
  | cons x t ih =>
    cases i with
    | zero => rfl
    | succ n => simpa [List.getD, List.set] using ih n

/-! Unfolding lemma for the successful path of the padder. -/

theorem pad_zip_file_eq_ok_some (data : List Nat) (p off : Nat)
    (h1 : find_eocd data = some off)
    (h2 : readU16 data (off + 20) + p ≤ 65535) :
    pad_zip_file data p = Except.ok (some
      ((data.set (off + 20) ((readU16 data (off + 20) + p) % 256)).set
          (off + 21) ((readU16 data (off + 20) + p) / 256)
        ++ List.replicate p 35)) := by
  have hp : ¬ p > 65535 := by omega
  have hnew : ¬ readU16 data (off + 20) + p > 65535 := by omega
  have hmod : (readU16 data (off + 20) + p) % 65536
      = readU16 data (off + 20) + p := Nat.mod_eq_of_lt (by omega)
  unfold pad_zip_file
  rw [if_neg hp, h1]
  simp only [if_neg hnew, hmod]

/-! Lemmas for the refusal paths of the padder. -/

theorem pad_zip_file_eq_ok_none_of_big (data : List Nat) (p : Nat)
    (h : 65535 < p) : pad_zip_file data p = Except.ok none := by
  unfold pad_zip_file
  rw [if_pos h]

theorem pad_zip_file_eq_ok_none_of_unfound (data : List Nat) (p : Nat)
    (h1 : p ≤ 65535) (h2 : find_eocd data = none) :
    pad_zip_file data p = Except.ok none := by
  unfold pad_zip_file
  rw [if_neg (by omega), h2]

theorem pad_zip_file_eq_ok_none_of_overflow (data : List Nat) (p off : Nat)
    (h1 : p ≤ 65535) (h2 : find_eocd data = some off)
    (h3 : 65535 < readU16 data (off + 20) + p) :
    pad_zip_file data p = Except.ok none := by
  unfold pad_zip_file
  rw [if_neg (by omega), h2]
  simp only [if_pos h3]

theorem pad_zip_file_comment_fits (data : List Nat) (p off : Nat)
    (res : List Nat) (h1 : pad_zip_file data p = Except.ok (some res))
    (h2 : find_eocd data = some off) :
    readU16 data (off + 20) + p ≤ 65535 := by
  by_contra hgt
  push_neg at hgt
  by_cases hp : p ≤ 65535
  · rw [pad_zip_file_eq_ok_none_of_overflow data p off hp h2 hgt] at h1
    exact absurd (Except.ok.inj h1) (by simp)
  · rw [pad_zip_file_eq_ok_none_of_big data p (by omega)] at h1
    exact absurd (Except.ok.inj h1) (by simp)

/-! Concrete byte buffers used as witnesses and counterexamples. -/

/-- A bare 22-byte EOCD record with comment length 0: the minimal buffer the
strict invariant accepts at offset 0. -/
def record22 : List Nat := eocdSignature ++ List.replicate 16 0 ++ [0, 0]

/-- The result of padding `record22` by one byte. -/
def record22res : List Nat := eocdSignature ++ List.replicate 16 0 ++ [1, 0, 35]

/-- A 23-byte buffer: the 22-byte EOCD record followed by one stray byte, so
the signature matches at offset 0 with `0 + 22 + 0 = 22 < 23`: the strict
invariant fails there while the code's less-or-equal check passes. -/
def slack23 : List Nat := record22 ++ [0]

/-- The result of padding `slack23` by one byte. -/
def slack23res : List Nat := eocdSignature ++ List.replicate 16 0 ++ [1, 0, 0, 35]

/-- A 48-byte buffer whose strict EOCD record sits at offset 0 (declared
comment length 26, reaching exactly the end) while a spurious signature with
comment length 0 sits inside the comment at offset 24, where `24 + 22 = 46
≤ 48` but `46 ≠ 48`. -/
def twoSig48 : List Nat :=
  eocdSignature ++ List.replicate 16 0 ++ [26, 0] ++ [0, 0] ++
    eocdSignature ++ List.replicate 20 0

/-! Claim C1. -/

/-- Claim C1, counterexample: in `slack23` the signature matches at offset 0
and the strict invariant `0 + 22 + comment_length = length` fails there
(22 ≠ 23), yet `find_eocd` returns offset 0 — the code validates with a
less-or-equal check, so this strict-invariant false positive is not
rejected. -/
theorem claim_C1_counterexample :
    sigMatch slack23 0 = true ∧
      0 + 22 + readU16 slack23 (0 + 20) ≠ slack23.length ∧
      find_eocd slack23 = some 0 := by
  decide

/-- Claim C1, amended: a signature match is rejected only when the declared
comment would overrun the buffer; every offset returned by `find_eocd`
satisfies `offset + 22 + comment_length ≤ buffer_length` (less-or-equal,
not the strict equality the claim states). -/
theorem claim_C1_amended (data : List Nat) (j : Nat)
    (h : find_eocd data = some j) :
    j + 22 + readU16 data (j + 20) ≤ data.length :=
  ((find_eocd_eq_some_iff data j).mp h).1.2.2

/-- Witness for the amended claim C1 at the concrete buffer `record22`. -/
theorem claim_C1_witness :
    0 + 22 + readU16 record22 (0 + 20) ≤ record22.length :=
  claim_C1_amended record22 0 (by decide)

/-! Claim C4. -/

/-- Claim C4, counterexample: `twoSig48` has exactly one offset satisfying
the claim's well-formedness (signature plus strict length equality),
namely offset 0, yet `find_eocd` returns the rightmost offset passing the
code's less-or-equal validation, offset 24. -/
theorem claim_C4_counterexample :
    strictValidEocd twoSig48 0 ∧
      (∀ k, strictValidEocd twoSig48 k → k = 0) ∧
      find_eocd twoSig48 = some 24 := by
  refine ⟨by decide, ?_, by decide⟩
  intro k hk
  have hlen : twoSig48.length = 48 := by decide
  have h2 := hk.2
  rw [hlen] at h2
  have hk27 : k < 27 := by omega
  have hall : ∀ k, k < 27 → strictValidEocd twoSig48 k → k = 0 := by decide
  exact hall k hk27 hk

/-- Claim C4, amended: with well-formedness read as the code's validation
(signature match and `offset + 22 + comment_length ≤ buffer_length`),
`find_eocd` returns the rightmost validating offset; in particular a buffer
whose unique validating offset is `j` yields exactly `j`. -/
theorem claim_C4_amended (data : List Nat) (j : Nat)
    (h1 : validEocd data j) (h2 : ∀ k, j < k → ¬ validEocd data k) :
    find_eocd data = some j :=
  (find_eocd_eq_some_iff data j).mpr ⟨h1, h2⟩

/-- Witness for the amended claim C4 at the concrete buffer `record22`. -/
theorem claim_C4_witness : find_eocd record22 = some 0 :=
  claim_C4_amended record22 0 (by decide)
    (fun k hk hv => by
      have hb := hv.2.1
      have hlen : record22.length = 22 := by decide
      omega)

/-! Claim C9. -/

/-- Claim C9: whenever `find_eocd` returns `some j`, both `j + 22` and
`j + 22 + comment_length(j)` are at most the buffer length, so every byte
access the locator and the padder perform at `j..j+3`, `j+20` and `j+21`
is in bounds. -/
theorem claim_C9 (data : List Nat) (j : Nat) (h : find_eocd data = some j) :
    j + 22 ≤ data.length ∧
      j + 22 + readU16 data (j + 20) ≤ data.length := by
  have hv := ((find_eocd_eq_some_iff data j).mp h).1
  exact ⟨hv.2.1, hv.2.2⟩

/-- Witness for claim C9 at the concrete buffer `twoSig48`. -/
theorem claim_C9_witness :
    24 + 22 ≤ twoSig48.length ∧
      24 + 22 + readU16 twoSig48 (24 + 20) ≤ twoSig48.length :=
  claim_C9 twoSig48 24 (by decide)

/-! Claim C10. -/

/-- Claim C10: a buffer shorter than 22 bytes has no room for the fixed
EOCD record, so `find_eocd` returns `none` and `pad_zip_file` refuses with
`Ok(None)` for every padding amount up to 65535. -/
theorem claim_C10 (data : List Nat) (p : Nat)
    (h1 : data.length < 22) (h2 : p ≤ 65535) :
    find_eocd data = none ∧ pad_zip_file data p = Except.ok none := by
  have hnone : find_eocd data = none := by
    rw [find_eocd_eq_none_iff]
    intro k hv
    have hb := hv.2.1
    omega
  exact ⟨hnone, pad_zip_file_eq_ok_none_of_unfound data p h2 hnone⟩

/-- Witness for claim C10 at the empty buffer. -/
theorem claim_C10_witness :
    find_eocd ([] : List Nat) = none ∧
      pad_zip_file ([] : List Nat) 0 = Except.ok none :=
  claim_C10 [] 0 (by decide) (by decide)

/-! Facts about the explicit padded result. -/

theorem pad_res_length (data : List Nat) (off a b p : Nat) :
    ((data.set (off + 20) a).set (off + 21) b
      ++ List.replicate p 35).length = data.length + p := by
  simp

theorem readU16_set_append (data : List Nat) (off a b p : Nat)
    (hoff : off + 22 ≤ data.length) :
    readU16 ((data.set (off + 20) a).set (off + 21) b
      ++ List.replicate p 35) (off + 20) = a + 256 * b := by
  have h20 : off + 20 < ((data.set (off + 20) a).set (off + 21) b).length := by
    simp only [List.length_set]
    omega
  have h21 : off + 20 + 1 < ((data.set (off + 20) a).set (off + 21) b).length := by
    simp only [List.length_set]
    omega
  unfold readU16
  rw [getD_append_left _ _ _ _ h20, getD_append_left _ _ _ _ h21]
  have hidx : off + 20 + 1 = off + 21 := by omega
  rw [hidx]
  rw [getD_set_ne (data.set (off + 20) a) (off + 21) (off + 20) b 0 (by omega)]
  rw [getD_set_self (data.set (off + 20) a) (off + 21) b 0
    (by simp only [List.length_set]; omega)]
  rw [getD_set_self data (off + 20) a 0 (by omega)]

/-! Claim C2. -/

/-- Claim C2: when `find_eocd` locates an EOCD and the existing comment
length plus the padding fits in 16 bits, `pad_zip_file` succeeds, the
result is exactly `padding_needed` bytes longer, and the two bytes at
`offset + 20 .. 21` hold, little-endian, the old comment length plus the
padding. -/
theorem claim_C2 (data : List Nat) (p off : Nat)
    (h1 : find_eocd data = some off)
    (h2 : readU16 data (off + 20) + p ≤ 65535) :
    ∃ res, pad_zip_file data p = Except.ok (some res) ∧
      res.length = data.length + p ∧
      readU16 res (off + 20) = readU16 data (off + 20) + p := by
  have hoff : off + 22 ≤ data.length :=
    ((find_eocd_eq_some_iff data off).mp h1).1.2.1
  refine ⟨_, pad_zip_file_eq_ok_some data p off h1 h2, ?_, ?_⟩
  · exact pad_res_length data off _ _ p
  · rw [readU16_set_append data off _ _ p hoff]
    exact Nat.mod_add_div (readU16 data (off + 20) + p) 256

/-- Witness for claim C2 at the concrete buffer `record22` with one byte of
padding. -/
theorem claim_C2_witness :
    ∃ res, pad_zip_file record22 1 = Except.ok (some res) ∧
      res.length = record22.length + 1 ∧
      readU16 res (0 + 20) = readU16 record22 (0 + 20) + 1 :=
  claim_C2 record22 1 0 (by decide) (by decide)

/-! Claim C3. -/

/-- Claim C3: `pad_zip_file` never raises an error (every path returns
`Ok`), and it returns `Ok(None)` exactly in the three ordered refusal
cases: padding above 65535; otherwise no EOCD located; otherwise located
comment length plus padding above 65535.  In every other case it returns
`Ok(Some _)`. -/
theorem claim_C3 (data : List Nat) (p : Nat) :
    (∃ o, pad_zip_file data p = Except.ok o) ∧
      (pad_zip_file data p = Except.ok none ↔
        65535 < p ∨ (p ≤ 65535 ∧ find_eocd data = none) ∨
          (p ≤ 65535 ∧ ∃ off, find_eocd data = some off ∧
            65535 < readU16 data (off + 20) + p)) := by
  by_cases hp : 65535 < p
  · have h := pad_zip_file_eq_ok_none_of_big data p hp
    refine ⟨⟨none, h⟩, ?_⟩
    rw [h]
    constructor
    · intro _
      exact Or.inl hp
    · intro _
      rfl
  · push_neg at hp
    cases hf : find_eocd data with
    | none =>
      have h := pad_zip_file_eq_ok_none_of_unfound data p hp hf
      refine ⟨⟨none, h⟩, ?_⟩
      rw [h]
      constructor
      · intro _
        exact Or.inr (Or.inl ⟨hp, rfl⟩)
      · intro _
        rfl
    | some off =>
      by_cases hover : 65535 < readU16 data (off + 20) + p
      · have h := pad_zip_file_eq_ok_none_of_overflow data p off hp hf hover
        refine ⟨⟨none, h⟩, ?_⟩
        rw [h]
        constructor
        · intro _
          exact Or.inr (Or.inr ⟨hp, off, rfl, hover⟩)
        · intro _
          rfl
      · push_neg at hover
        have h := pad_zip_file_eq_ok_some data p off hf hover
        refine ⟨⟨some _, h⟩, ?_⟩
        rw [h]
        constructor
        · intro hok
          exact absurd (Except.ok.inj hok) (by simp)
        · intro hcase
          rcases hcase with hbig | ⟨_, hnone⟩ | ⟨_, off2, hoff2, hov2⟩
          · exact absurd hbig (by omega)
          · exact absurd hnone (by simp)
          · cases Option.some.inj hoff2
            exact absurd hov2 (by omega)

/-! Claim C5. -/

/-- Claim C5, counterexample: padding `slack23` by one byte succeeds with
the EOCD located at offset 0, but reading back the updated comment length
gives `0 + 22 + 1 = 23`, one short of the 24-byte result — the round-trip
equality fails because the locator accepted an offset whose comment fell
short of the buffer end. -/
theorem claim_C5_counterexample :
    find_eocd slack23 = some 0 ∧
      pad_zip_file slack23 1 = Except.ok (some slack23res) ∧
      0 + 22 + readU16 slack23res (0 + 20) ≠ slack23res.length := by
  decide

/-- Claim C5, amended: after a successful pad the updated comment length
satisfies `offset + 22 + comment_length ≤ len(result)` (declared comment
bytes never overrun the result), and the claimed strict equality holds
exactly when the located record already satisfied the strict invariant in
the input buffer. -/
theorem claim_C5_amended (data : List Nat) (p off : Nat) (res : List Nat)
    (h1 : pad_zip_file data p = Except.ok (some res))
    (h2 : find_eocd data = some off) :
    off + 22 + readU16 res (off + 20) ≤ res.length ∧
      (off + 22 + readU16 res (off + 20) = res.length ↔
        off + 22 + readU16 data (off + 20) = data.length) := by
  have hle := pad_zip_file_comment_fits data p off res h1 h2
  have hv := ((find_eocd_eq_some_iff data off).mp h2).1
  have hoff : off + 22 ≤ data.length := hv.2.1
  have hfit : off + 22 + readU16 data (off + 20) ≤ data.length := hv.2.2
  have heq := pad_zip_file_eq_ok_some data p off h2 hle
  rw [heq] at h1
  have hres := (Option.some.inj (Except.ok.inj h1)).symm
  subst hres
  rw [readU16_set_append data off _ _ p hoff,
    Nat.mod_add_div (readU16 data (off + 20) + p) 256,
    pad_res_length data off _ _ p]
  omega

/-- Witness for the amended claim C5 at the concrete buffer `record22`. -/
theorem claim_C5_witness :
    0 + 22 + readU16 record22res (0 + 20) ≤ record22res.length ∧
      (0 + 22 + readU16 record22res (0 + 20) = record22res.length ↔
        0 + 22 + readU16 record22 (0 + 20) = record22.length) :=
  claim_C5_amended record22 1 0 record22res (by decide) (by decide)

/-! Claim C6. -/

/-- Claim C6: the locator prefers the bounded window — if any offset within
the last 65557 bytes passes the code's validation, the returned offset lies
in that window — and in general the result is the rightmost validating
offset anywhere in the buffer, or `none` when no offset validates. -/
theorem claim_C6 (data : List Nat) :
    ((∃ k, data.length - 65557 ≤ k ∧ validEocd data k) →
      ∃ j, find_eocd data = some j ∧ data.length - 65557 ≤ j) ∧
      (∀ j, find_eocd data = some j ↔
        validEocd data j ∧ ∀ k, j < k → ¬ validEocd data k) ∧
      (find_eocd data = none ↔ ∀ k, ¬ validEocd data k) := by
  refine ⟨?_, fun j => find_eocd_eq_some_iff data j, find_eocd_eq_none_iff data⟩
  intro ⟨k0, hk0w, hk0v⟩
  have hk0len : k0 ≤ data.length := by
    have := hk0v.2.1
    omega
  have hjv : validEocd data
      (Nat.findGreatest (fun m => validEocd data m) data.length) :=
    Nat.findGreatest_spec hk0len hk0v
  have hjge : k0 ≤ Nat.findGreatest (fun m => validEocd data m) data.length :=
    Nat.le_findGreatest hk0len hk0v
  refine ⟨Nat.findGreatest (fun m => validEocd data m) data.length, ?_, by omega⟩
  rw [find_eocd_eq_some_iff]
  refine ⟨hjv, ?_⟩
  intro k hk hkv
  have hklen : k ≤ data.length := by
    have := hkv.2.1
    omega
  exact Nat.findGreatest_is_greatest hk hklen hkv

/-! Claim C7. -/

/-- Claim C7, frame property: a successful pad changes nothing of the
original bytes except the two comment-length bytes at `offset + 20` and
`offset + 21`, and the appended tail is exactly `padding_needed` copies of
the filler byte `b'#'` (35). -/
theorem claim_C7 (data : List Nat) (p off : Nat) (res : List Nat)
    (h1 : find_eocd data = some off)
    (h2 : pad_zip_file data p = Except.ok (some res)) :
    (∀ j, j < data.length → j ≠ off + 20 → j ≠ off + 21 →
      res.getD j 0 = data.getD j 0) ∧
      List.drop data.length res = List.replicate p 35 := by
  have hle := pad_zip_file_comment_fits data p off res h2 h1
  have heq := pad_zip_file_eq_ok_some data p off h1 hle
  rw [heq] at h2
  have hres := (Option.some.inj (Except.ok.inj h2)).symm
  subst hres
  constructor
  · intro j hj hj20 hj21
    have hjlen : j < ((data.set (off + 20)
        ((readU16 data (off + 20) + p) % 256)).set (off + 21)
        ((readU16 data (off + 20) + p) / 256)).length := by
      simp only [List.length_set]
      omega
    rw [getD_append_left _ _ _ _ hjlen]
    rw [getD_set_ne _ (off + 21) j _ 0 (fun h => hj21 h.symm)]
    rw [getD_set_ne _ (off + 20) j _ 0 (fun h => hj20 h.symm)]
  · have hlen : ((data.set (off + 20)
        ((readU16 data (off + 20) + p) % 256)).set (off + 21)
        ((readU16 data (off + 20) + p) / 256)).length = data.length := by
      simp only [List.length_set]
    rw [← hlen]
    exact List.drop_left _ _

/-- Witness for claim C7 at the concrete buffer `record22`. -/
theorem claim_C7_witness :
    (∀ j, j < record22.length → j ≠ 0 + 20 → j ≠ 0 + 21 →
      record22res.getD j 0 = record22.getD j 0) ∧
      List.drop record22.length record22res = List.replicate 1 35 :=
  claim_C7 record22 1 0 record22res (by decide) (by decide)

/-! Claim C8. -/

theorem getD_mem (l : List Nat) (i d : Nat) (h : i < l.length) :
    l.getD i d ∈ l := by
  induction l generalizing i with
  | nil => simp at h
  | cons x t ih =>
    cases i with
    | zero => exact List.mem_cons_self x t
    | succ n =>
      have hn : n < t.length := by simpa using h
      exact List.mem_cons_of_mem x (by simpa [List.getD] using ih n hn)

/-- Claim C8: padding by zero is the identity on a successful result — if
`pad_zip_file data 0` returns `Ok(Some res)` then `res` equals `data` byte
for byte.  The hypothesis that entries are below 256 reflects that the
source buffer consists of `u8` values. -/
theorem claim_C8 (data res : List Nat)
    (hbytes : ∀ b ∈ data, b < 256)
    (h : pad_zip_file data 0 = Except.ok (some res)) :
    res = data := by
  cases hf : find_eocd data with
  | none =>
    rw [pad_zip_file_eq_ok_none_of_unfound data 0 (by omega) hf] at h
    exact absurd (Except.ok.inj h) (by simp)
  | some off =>
    have hle := pad_zip_file_comment_fits data 0 off res h hf
    have hoff : off + 22 ≤ data.length :=
      ((find_eocd_eq_some_iff data off).mp hf).1.2.1
    have heq := pad_zip_file_eq_ok_some data 0 off hf hle
    rw [heq] at h
    have hres := (Option.some.inj (Except.ok.inj h)).symm
    have hb20 : data.getD (off + 20) 0 < 256 :=
      hbytes _ (getD_mem data (off + 20) 0 (by omega))
    have hidx : off + 20 + 1 = off + 21 := by omega
    have e1 : (readU16 data (off + 20) + 0) % 256 = data.getD (off + 20) 0 := by
      unfold readU16
      omega
    have e2 : (readU16 data (off + 20) + 0) / 256 = data.getD (off + 21) 0 := by
      unfold readU16
      rw [hidx]
      omega
    rw [hres, e1, e2, set_getD_self, set_getD_self]
    simp

/-- Witness for claim C8 at the concrete buffer `record22`. -/
theorem claim_C8_witness : record22 = record22 :=
  claim_C8 record22 record22 (by decide) (by decide)

end ModReplacer
